import Mathlib

/-!
Shallow embedding of `generate_and_etl.py`: a synthetic insurance-claims
generator (`generate_record` / `generate_raw`), a cleaning transformation
(`clean_data`), and the Trend summary aggregate (`trend`), together with
theorems about the contracts these components satisfy.

A DataFrame is modelled as a `List Record`; each pandas column statement is
one pass over the list.  Randomness is modelled by deterministic entropy
streams threaded through the generator, and the single impure input of the
generator — `datetime.today()` — is an explicit `today : Int` day-number
parameter.
-/

/-- Calendar date, mirroring Python `datetime.date` (which guarantees
`1 ≤ month ≤ 12`, `1 ≤ day ≤ 31`, `year ≤ 9999 = datetime.MAXYEAR`). -/
structure Date where
  year : Nat
  month : Nat
  day : Nat
deriving DecidableEq, Repr

/-- Field bounds Python `datetime.date` enforces on every value it ever
constructs. -/
def Date.Valid (d : Date) : Prop :=
  1 ≤ d.month ∧ d.month ≤ 12 ∧ 1 ≤ d.day ∧ d.day ≤ 31 ∧ d.year ≤ 9999

instance (d : Date) : Decidable d.Valid := by unfold Date.Valid; infer_instance

/-- Two-digit zero-padded decimal rendering, Python format `%02d` as used
by `date.isoformat()` for months and days (`datetime` guarantees these are
at most two digits wide). -/
def pad2 (n : Nat) : String :=
  ⟨[Nat.digitChar (n / 10 % 10), Nat.digitChar (n % 10)]⟩

/-- Four-digit zero-padded decimal rendering, Python format `%04d` as used
by `date.isoformat()` for years (`datetime` guarantees `year ≤ 9999`). -/
def pad4 (n : Nat) : String :=
  ⟨[Nat.digitChar (n / 1000 % 10), Nat.digitChar (n / 100 % 10),
    Nat.digitChar (n / 10 % 10), Nat.digitChar (n % 10)]⟩

/-- ISO representation `YYYY-MM-DD` produced by `date.isoformat()`. -/
def Date.iso (d : Date) : String :=
  pad4 d.year ++ "-" ++ pad2 d.month ++ "-" ++ pad2 d.day

/-- String form `YYYY-MM` of the month period, as produced by
`.dt.to_period("M").astype(str)` in `clean_data`. -/
def Date.yearMonthStr (d : Date) : String := pad4 d.year ++ "-" ++ pad2 d.month

/-- Decimal value of one character, `none` when it is not a digit. -/
def charDigit? (c : Char) : Option Nat :=
  if c.toNat < 48 ∨ 57 < c.toNat then none else some (c.toNat - 48)

/-- Decimal value of a digit run, accumulating left to right. -/
def digitsToNatAux : List Char → Nat → Option Nat
  | [], acc => some acc
  | c :: cs, acc =>
    match charDigit? c with
    | none => none
    | some d => digitsToNatAux cs (acc * 10 + d)

/-- Decimal value of a nonempty digit run (leading zeros allowed). -/
def digitsToNat? : List Char → Option Nat
  | [] => none
  | l => digitsToNatAux l 0

/-- Split a character list at each dash. -/
def splitDash : List Char → List (List Char)
  | [] => [[]]
  | c :: cs =>
    match splitDash cs with
    | [] => [[]]
    | h :: t => if c = '-' then [] :: h :: t else (c :: h) :: t

/-- Parse an ISO `YYYY-MM-DD` entry, mirroring `pd.to_datetime` on one
column entry: a malformed or out-of-range entry raises (here: `none`). -/
def parseDate (s : String) : Option Date :=
  match (splitDash s.data).map digitsToNat? with
  | [some y, some m, some d] =>
    if 1 ≤ m ∧ m ≤ 12 ∧ 1 ≤ d ∧ d ≤ 31 ∧ y ≤ 9999 then some ⟨y, m, d⟩ else none
  | _ => none

/-- Value held in the `ClaimDate` column: a raw string before parsing
(object dtype), a datetime afterwards (datetime64 dtype). -/
inductive DateVal where
  | str (s : String)
  | dt (d : Date)
deriving DecidableEq, Repr

/-- Effect of `pd.to_datetime` on one entry: parses strings, passes
datetimes through unchanged. -/
def toDatetime : DateVal → Option Date
  | .str s => parseDate s
  | .dt d => some d

/-- Effect of `.dt.to_period("M").astype(str)` on one entry: defined on
datetime values only; on a non-datetime column pandas raises (here:
`none`). -/
def DateVal.periodM : DateVal → Option String
  | .str _ => none
  | .dt d => some d.yearMonthStr

/-- Gregorian civil date from a day number (days since 1970-01-01), the
standard civil-from-days algorithm.  Models how the `datetime` subtraction
`datetime.today() - timedelta(days=k)` followed by `.date()` yields a
calendar date, with `today` abstracted to its day number. -/
def civilFromDays (z0 : Int) : Date :=
  let z := z0 + 719468
  let era : Int := (if 0 ≤ z then z else z - 146096) / 146097
  let doe := z - era * 146097
  let yoe := (doe - doe / 1460 + doe / 36524 - doe / 146096) / 365
  let y := yoe + era * 400
  let doy := doe - (365 * yoe + yoe / 4 - yoe / 100)
  let mp := (5 * doy + 2) / 153
  let d := doy - (153 * mp + 2) / 5 + 1
  let m := if mp < 10 then mp + 3 else mp - 9
  ⟨(if m ≤ 2 then y + 1 else y).toNat, m.toNat, d.toNat⟩

def CLAIM_TYPES : List String := ["Motor", "Health", "Property"]

def STATUSES : List String := ["Approved", "Rejected", "Pending"]

def REGIONS : List String :=
  ["Karnataka", "Maharashtra", "Delhi", "Tamil Nadu", "Gujarat",
   "Telangana", "West Bengal", "Rajasthan", "Uttar Pradesh", "Kerala"]

/-- Python `str.zfill w`: left-pad with zero characters to width `w`. -/
def zfill (w : Nat) (s : String) : String :=
  ⟨List.replicate (w - s.data.length) '0' ++ s.data⟩

/-- Agent codes `A001` .. `A050`. -/
def AGENTS : List String := (List.range 50).map (fun i => "A" ++ zfill 3 (toString (i + 1)))

/-- One claim record: a row of the DataFrame.  `YearMonth` is `none` until
the cleaning step adds the column. -/
structure Record where
  ClaimID : String
  PolicyID : String
  CustomerID : String
  ClaimType : String
  ClaimAmount : Int
  ClaimStatus : String
  SettlementDays : Int
  FraudFlag : Int
  ClaimDate : DateVal
  Region : String
  AgentID : String
  YearMonth : Option String := none
deriving DecidableEq, Repr

/-- Abstract seeded pseudo-random source: three deterministic entropy
streams (the `random` module's integer and float draws, and the numpy
normal draws), each with a cursor.  Seeding fixes the streams, so every
draw is a pure function of this state. -/
structure RNG where
  ints : Nat → Nat
  floats : Nat → Rat
  npnormals : Nat → Int
  ipos : Nat := 0
  fpos : Nat := 0
  npos : Nat := 0

/-- Uniform integer in `[0, n)`, as `random._randbelow`. -/
def randBelow (g : RNG) (n : Nat) : Nat × RNG :=
  (g.ints g.ipos % n, { g with ipos := g.ipos + 1 })

/-- Python `random.randint a b`: uniform integer in `[a, b]`. -/
def randint (g : RNG) (a b : Nat) : Nat × RNG :=
  (a + g.ints g.ipos % (b + 1 - a), { g with ipos := g.ipos + 1 })

/-- Python `random.random()`: a float in `[0, 1)`, modelled as a rational
draw from the float stream. -/
def randFloat (g : RNG) : Rat × RNG := (g.floats g.fpos, { g with fpos := g.fpos + 1 })

/-- Truncated normal draw `int(np.random.normal(loc=0, scale=5))`: an
arbitrary integer from the numpy stream (the normal has full support). -/
def npNormalInt (g : RNG) : Int × RNG := (g.npnormals g.npos, { g with npos := g.npos + 1 })

/-- Python `random.choices(population, weights, k=1)[0]` for a 3-element
population: one float draw compared against cumulative weights
`c1 < c2 < 1` (bisect on the cumulative-weight table). -/
def choices3 (population : List String) (c1 c2 : Rat) (g : RNG) : String × RNG :=
  let (u, g1) := randFloat g
  (if u < c1 then population.getD 0 ""
   else if u < c2 then population.getD 1 ""
   else population.getD 2 "", g1)

/-- Python `random.choice(seq)`: uniform element of a nonempty sequence. -/
def choice (population : List String) (g : RNG) : String × RNG :=
  let (i, g1) := randBelow g population.length
  (population.getD i "", g1)

/-- Fraud-flag draw probability `min(0.05 + amount/1_000_000, 0.15)` from
`generate_record`. -/
def fraudProb (amount : Int) : Rat :=
  min ((5 : Rat) / 100 + (amount : Rat) / 1000000) ((15 : Rat) / 100)

/-- `rand_date_within_months`: today minus a uniform number of days in
`[0, months_back*30]`.  `today` is the current day number, the single
impure input (`datetime.today()`) of the generator. -/
def rand_date_within_months (today : Int) (months_back : Nat) (g : RNG) : Int × RNG :=
  let (days_back, g1) := randint g 0 (months_back * 30)
  (today - days_back, g1)

/-- `generate_record idx`: one synthetic claim record, drawing from the
random source in exactly the order of the Python code. -/
def generate_record (idx : Nat) (today : Int) (g0 : RNG) : Record × RNG :=
  let ct := choices3 CLAIM_TYPES (mkRat 5 10) (mkRat 8 10) g0
  let claim_type := ct.1
  let st := choices3 STATUSES (mkRat 7 10) (mkRat 9 10) ct.2
  let status := st.1
  let rg := choice REGIONS st.2
  let region := rg.1
  let ag := choice AGENTS rg.2
  let agent := ag.1
  let amtDays :=
    if claim_type = "Motor" then
      let a := randint ag.2 10000 250000
      let b := randint a.2 5 25
      (a.1, b.1, b.2)
    else if claim_type = "Health" then
      let a := randint ag.2 20000 500000
      let b := randint a.2 7 35
      (a.1, b.1, b.2)
    else
      let a := randint ag.2 30000 500000
      let b := randint a.2 10 45
      (a.1, b.1, b.2)
  let amount := amtDays.1
  let base_days := amtDays.2.1
  let fu := randFloat amtDays.2.2
  let fraud_flag : Int := if fu.1 < fraudProb amount then 1 else 0
  let cd := rand_date_within_months today 18 fu.2
  let setl :=
    if status = "Pending" then
      let s := randint cd.2 1 10
      ((s.1 : Int), s.2)
    else
      let j := npNormalInt cd.2
      (max 1 ((base_days : Int) + j.1), j.2)
  let pol := randint setl.2 1 99999
  let cust := randint pol.2 1 99999
  ({ ClaimID := "C" ++ toString (100000 + idx),
     PolicyID := "P" ++ toString (200000 + pol.1),
     CustomerID := "CU" ++ toString (300000 + cust.1),
     ClaimType := claim_type,
     ClaimAmount := (amount : Int),
     ClaimStatus := status,
     SettlementDays := setl.1,
     FraudFlag := fraud_flag,
     ClaimDate := DateVal.str (civilFromDays cd.1).iso,
     Region := region,
     AgentID := agent }, cust.2)

/-- Generate records `idx, idx+1, ...` threading the random state, as the
list comprehension in `generate_raw` does. -/
def genFrom : Nat → Nat → Int → RNG → List Record
  | 0, _, _, _ => []
  | n + 1, idx, today, g =>
    (generate_record idx today g).1 :: genFrom n (idx + 1) today (generate_record idx today g).2

/-- `generate_raw n`: the raw table of `n` generated records. -/
def generate_raw (n : Nat) (today : Int) (g : RNG) : List Record :=
  genFrom n 0 today g

/-- pandas `clip lo hi` on one value. -/
def clip (lo hi x : Int) : Int := if x < lo then lo else if hi < x then hi else x

/-- Option-valued traversal of a column operation: pandas applies the
operation to every entry in order and raises on the first failure. -/
def optionMap (f : α → Option β) : List α → Option (List β)
  | [] => some []
  | a :: l => do
    let b ← f a
    let l' ← optionMap f l
    pure (b :: l')

/-- Entry-wise effect of `df["SettlementDays"].clip(1, 90)` on one row. -/
def clipRow (r : Record) : Record :=
  { r with SettlementDays := clip 1 90 r.SettlementDays }

/-- Entry-wise effect of `.where(isin(STATUSES), "Pending")` on one row. -/
def statusRow (r : Record) : Record :=
  { r with ClaimStatus := if r.ClaimStatus ∈ STATUSES then r.ClaimStatus else "Pending" }

/-- Entry-wise effect of `pd.to_datetime(df["ClaimDate"])` on one row. -/
def dateRow (r : Record) : Option Record :=
  (toDatetime r.ClaimDate).map (fun d => { r with ClaimDate := DateVal.dt d })

/-- Entry-wise effect of deriving the `YearMonth` column on one row. -/
def ymRow (r : Record) : Option Record :=
  (r.ClaimDate.periodM).map (fun ym => { r with YearMonth := some ym })

/-- `clean_data`: drop rows with non-positive `ClaimAmount`, clamp
`SettlementDays` into `[1, 90]`, coerce statuses outside `STATUSES` to
`"Pending"`, parse `ClaimDate`, and derive the `YearMonth` column.  Each
pandas statement of the source is one pass over the table. -/
def clean_data (df : List Record) : Option (List Record) :=
  let kept := df.filter (fun r => decide (0 < r.ClaimAmount))
  let s1 := kept.map clipRow
  let s2 := s1.map statusRow
  do
    let s3 ← optionMap dateRow s2
    let s4 ← optionMap ymRow s3
    pure s4

/-- Per-row effect of `clean_data` on a surviving row: the row-level
composition of the four column operations. -/
def cleanRow (r : Record) : Option Record :=
  (dateRow (statusRow (clipRow r))).bind ymRow

/-- YearMonth column entry of a cleaned row. -/
def ymOf (r : Record) : String := r.YearMonth.getD ""

/-- The Trend sheet: `df.groupby("YearMonth").size()` — one row per
distinct `YearMonth` value, keys sorted ascending, each value the size of
its group. -/
def trend (df : List Record) : List (String × Nat) :=
  (((df.map ymOf).dedup).insertionSort (· ≤ ·)).map
    (fun k => (k, df.countP (fun r => ymOf r == k)))

/-- Raw identity fields of a row, none of which cleaning may rewrite. -/
def frameFields (r : Record) :
    String × String × String × String × Int × Int × String × String :=
  (r.ClaimID, r.PolicyID, r.CustomerID, r.ClaimType, r.ClaimAmount,
   r.FraudFlag, r.Region, r.AgentID)

/-- Lower end of the uniform amount range keyed by claim type, following
the branch structure of `generate_record`. -/
def amountLo (t : String) : Int :=
  if t = "Motor" then 10000 else if t = "Health" then 20000 else 30000

/-- Upper end of the uniform amount range keyed by claim type. -/
def amountHi (t : String) : Int :=
  if t = "Motor" then 250000 else 500000

/-- A record with its `ClaimDate` blanked, for comparing generator runs
modulo the current date. -/
def stripDate (r : Record) : Record := { r with ClaimDate := DateVal.str "" }

/-! Concrete demonstration rows used to instantiate the theorems. -/

/-- A well-formed raw row as the generator would emit it. -/
def rDemo : Record :=
  { ClaimID := "C100000", PolicyID := "P200001", CustomerID := "CU300001",
    ClaimType := "Motor", ClaimAmount := 12000, ClaimStatus := "Approved",
    SettlementDays := 12, FraudFlag := 0,
    ClaimDate := DateVal.str "2024-05-17", Region := "Kerala", AgentID := "A001" }

/-- A defective row with non-positive amount, dropped by cleaning. -/
def rBad : Record := { rDemo with ClaimID := "C100001", ClaimAmount := 0 }

/-- The cleaned form of `rDemo`. -/
def rDemoClean : Record :=
  { rDemo with ClaimDate := DateVal.dt ⟨2024, 5, 17⟩, YearMonth := some "2024-05" }

/-- All-zero entropy streams: a concrete random source for witnesses. -/
def gZero : RNG := { ints := fun _ => 0, floats := fun _ => 0, npnormals := fun _ => 0 }

/-- The single record generated from `gZero` at day number 0. -/
def genDemo : Record := (generate_record 0 0 gZero).1

/-! Structural lemmas about `optionMap`. -/

theorem optionMap_nil (f : α → Option β) : optionMap f [] = some [] := rfl

theorem optionMap_cons (f : α → Option β) (a : α) (l : List α) :
    optionMap f (a :: l) =
      (f a).bind (fun b => (optionMap f l).bind (fun l' => some (b :: l'))) := by
  simp [optionMap]

theorem optionMap_map (f : β → Option γ) (g : α → β) (l : List α) :
    optionMap f (l.map g) = optionMap (fun a => f (g a)) l := by
  induction l with
  | nil => rfl
  | cons a l ih => simp [optionMap_cons, ih]

theorem optionMap_bind_optionMap (f : α → Option β) (h : β → Option γ) (l : List α) :
    (optionMap f l).bind (optionMap h) =
      optionMap (fun a => (f a).bind h) l := by
  induction l with
  | nil => rfl
  | cons a l ih =>
    rw [optionMap_cons, optionMap_cons]
    cases hfa : f a with
    | none => simp
    | some b =>
      simp only [Option.some_bind]
      cases hfl : optionMap f l with
      | none =>
        rw [hfl] at ih
        simp only [Option.none_bind] at ih ⊢
        rw [← ih]
        cases h b <;> simp
      | some bs =>
        rw [hfl] at ih
        simp only [Option.some_bind] at ih ⊢
        rw [optionMap_cons, ← ih]

theorem optionMap_length {f : α → Option β} :
    ∀ {l : List α} {m : List β}, optionMap f l = some m → m.length = l.length := by
  intro l
  induction l with
  | nil => intro m hm; rw [optionMap_nil] at hm; injection hm with h; rw [← h]; rfl
  | cons a l ih =>
    intro m hm
    rw [optionMap_cons] at hm
    cases hfa : f a with
    | none => rw [hfa] at hm; simp at hm
    | some b =>
      rw [hfa] at hm
      cases hfl : optionMap f l with
      | none => rw [hfl] at hm; simp at hm
      | some bs =>
        rw [hfl] at hm
        simp only [Option.some_bind, Option.some.injEq] at hm
        simp [← hm, ih hfl]

theorem optionMap_mem {f : α → Option β} :
    ∀ {l : List α} {m : List β}, optionMap f l = some m →
      ∀ b ∈ m, ∃ a ∈ l, f a = some b := by
  intro l
  induction l with
  | nil =>
    intro m hm
    rw [optionMap_nil] at hm
    injection hm with h
    intro b hb
    rw [← h] at hb
    exact absurd hb (List.not_mem_nil b)
  | cons a l ih =>
    intro m hm
    rw [optionMap_cons] at hm
    cases hfa : f a with
    | none => rw [hfa] at hm; simp at hm
    | some b =>
      rw [hfa] at hm
      cases hfl : optionMap f l with
      | none => rw [hfl] at hm; simp at hm
      | some bs =>
        rw [hfl] at hm
        simp only [Option.some_bind, Option.some.injEq] at hm
        intro c hc
        rw [← hm] at hc
        rcases List.mem_cons.1 hc with hc | hc
        · exact ⟨a, List.mem_cons_self a l, by rw [hfa, hc]⟩
        · rcases ih hfl c hc with ⟨x, hx, hfx⟩
          exact ⟨x, List.mem_cons_of_mem a hx, hfx⟩

theorem optionMap_map_eq {f : α → Option β} {proj : β → γ} {pspec : α → γ}
    (hp : ∀ a b, f a = some b → proj b = pspec a) :
    ∀ {l : List α} {m : List β}, optionMap f l = some m →
      m.map proj = l.map pspec := by
  intro l
  induction l with
  | nil => intro m hm; rw [optionMap_nil] at hm; injection hm with h; rw [← h]; rfl
  | cons a l ih =>
    intro m hm
    rw [optionMap_cons] at hm
    cases hfa : f a with
    | none => rw [hfa] at hm; simp at hm
    | some b =>
      rw [hfa] at hm
      cases hfl : optionMap f l with
      | none => rw [hfl] at hm; simp at hm
      | some bs =>
        rw [hfl] at hm
        simp only [Option.some_bind, Option.some.injEq] at hm
        simp [← hm, ih hfl, hp a b hfa]

theorem optionMap_fixed {f : α → Option α} :
    ∀ {l : List α}, (∀ a ∈ l, f a = some a) → optionMap f l = some l := by
  intro l
  induction l with
  | nil => intro _; rfl
  | cons a l ih =>
    intro h
    rw [optionMap_cons, h a (List.mem_cons_self a l),
      ih (fun x hx => h x (List.mem_cons_of_mem a hx))]
    rfl

/-- Column-level cleaning equals the row-level composition `cleanRow`
applied to each surviving row. -/
theorem clean_data_eq_rowwise (df : List Record) :
    clean_data df =
      optionMap cleanRow (df.filter (fun r => decide (0 < r.ClaimAmount))) := by
  unfold clean_data
  rw [show (do
        let s3 ← optionMap dateRow (((df.filter (fun r => decide (0 < r.ClaimAmount))).map clipRow).map statusRow)
        let s4 ← optionMap ymRow s3
        pure s4 : Option (List Record)) =
      (optionMap dateRow (((df.filter (fun r => decide (0 < r.ClaimAmount))).map clipRow).map statusRow)).bind
        (optionMap ymRow) from by
    cases optionMap dateRow (((df.filter (fun r => decide (0 < r.ClaimAmount))).map clipRow).map statusRow) with
    | none => rfl
    | some s3 => simp]
  rw [optionMap_map, optionMap_map, optionMap_bind_optionMap]
  rfl

/-! Arithmetic facts about the clamp operation. -/

theorem clip_eq_min_max (x : Int) : clip 1 90 x = min 90 (max 1 x) := by
  unfold clip
  rcases lt_or_le x 1 with h1 | h1
  · rw [if_pos h1]
    omega
  · rw [if_neg (not_lt.mpr h1)]
    rcases lt_or_le 90 x with h2 | h2
    · rw [if_pos h2]
      omega
    · rw [if_neg (not_lt.mpr h2)]
      omega

theorem clip_bounds (x : Int) : 1 ≤ clip 1 90 x ∧ clip 1 90 x ≤ 90 := by
  unfold clip
  split_ifs <;> omega

theorem clip_fixed {x : Int} (h1 : 1 ≤ x) (h2 : x ≤ 90) : clip 1 90 x = x := by
  unfold clip
  split_ifs <;> omega

/-- The month string equals the first seven characters of the ISO string. -/
theorem yearMonthStr_eq_take_iso (d : Date) : d.yearMonthStr = (d.iso).take 7 := by
  have h : (d.iso).take 7 = ⟨(d.iso).data.take 7⟩ := String.take_eq _ _
  rw [h]
  rfl

/-- Dates produced by parsing satisfy the `datetime.date` field bounds. -/
theorem parseDate_valid {s : String} {d : Date} (h : parseDate s = some d) : d.Valid := by
  unfold parseDate at h
  rcases hl : (splitDash s.data).map digitsToNat? with _ | ⟨o1, tl⟩
  · rw [hl] at h; exact absurd h (by simp)
  · rw [hl] at h
    cases o1 with
    | none => exact absurd h (by simp)
    | some y =>
      rcases tl with _ | ⟨o2, tl2⟩
      · exact absurd h (by simp)
      cases o2 with
      | none => exact absurd h (by simp)
      | some m =>
        rcases tl2 with _ | ⟨o3, tl3⟩
        · exact absurd h (by simp)
        cases o3 with
        | none => exact absurd h (by simp)
        | some dd =>
          rcases tl3 with _ | ⟨o4, tl4⟩
          · simp only [] at h
            split_ifs at h with hcond
            · injection h with h
              rw [← h]
              exact ⟨hcond.1, hcond.2.1, hcond.2.2.1, hcond.2.2.2.1, hcond.2.2.2.2⟩
          · exact absurd h (by simp)

/-- Characterization of the per-row cleaning transformation. -/
theorem cleanRow_eq_some_iff {r r' : Record} :
    cleanRow r = some r' ↔ ∃ d, toDatetime r.ClaimDate = some d ∧
      r' = { r with
        SettlementDays := clip 1 90 r.SettlementDays,
        ClaimStatus := if r.ClaimStatus ∈ STATUSES then r.ClaimStatus else "Pending",
        ClaimDate := DateVal.dt d,
        YearMonth := some d.yearMonthStr } := by
  unfold cleanRow dateRow ymRow statusRow clipRow
  cases htd : toDatetime r.ClaimDate with
  | none => simp
  | some d => simp [DateVal.periodM, eq_comm]

/-- C1: cleaning keeps exactly the rows with positive `ClaimAmount`, in
input order (each surviving row is the row-wise cleaning of the matching
input row, and the `ClaimID` sequence is the filtered input sequence); the
output is never longer than the input, and a table whose amounts are all
at least 10000 — as every generator table is — loses no rows. -/
theorem clean_keeps_exactly_positive_rows :
    (∀ df : List Record, clean_data df =
        optionMap cleanRow (df.filter (fun r => decide (0 < r.ClaimAmount)))) ∧
    (∀ (df out : List Record), clean_data df = some out →
      out.map Record.ClaimID =
        (df.filter (fun r => decide (0 < r.ClaimAmount))).map Record.ClaimID ∧
      out.length ≤ df.length ∧
      ((∀ r ∈ df, (10000 : Int) ≤ r.ClaimAmount) → out.length = df.length)) := by
  refine ⟨clean_data_eq_rowwise, fun df out hout => ?_⟩
  rw [clean_data_eq_rowwise] at hout
  have hid : out.map Record.ClaimID =
      (df.filter (fun r => decide (0 < r.ClaimAmount))).map Record.ClaimID :=
    optionMap_map_eq
      (fun a b hab => by
        rcases cleanRow_eq_some_iff.1 hab with ⟨d, _, rfl⟩
        rfl) hout
  have hlen := optionMap_length hout
  refine ⟨hid, ?_, ?_⟩
  · rw [hlen]
    exact List.length_filter_le _ _
  · intro hbig
    rw [hlen, List.filter_eq_self.mpr]
    intro a ha
    have := hbig a ha
    simp only [decide_eq_true_eq]
    omega

/-- C1 witness: on a concrete one-row table with positive amount, no row
is dropped. -/
theorem clean_keeps_exactly_positive_rows_witness :
    [rDemoClean].length = [rDemo].length :=
  (clean_keeps_exactly_positive_rows.2 [rDemo] [rDemoClean] (by decide)).2.2 (by decide)

/-- C2: every surviving row's `SettlementDays` is the input value clamped
as `min 90 (max 1 d)`, and hence lies in `[1, 90]`. -/
theorem clean_clamps_settlement_days :
    ∀ (df out : List Record), clean_data df = some out →
      out.map Record.SettlementDays =
        (df.filter (fun r => decide (0 < r.ClaimAmount))).map
          (fun r => min 90 (max 1 r.SettlementDays)) ∧
      ∀ r ∈ out, 1 ≤ r.SettlementDays ∧ r.SettlementDays ≤ 90 := by
  intro df out hout
  rw [clean_data_eq_rowwise] at hout
  constructor
  · exact optionMap_map_eq
      (fun a b hab => by
        rcases cleanRow_eq_some_iff.1 hab with ⟨d, _, rfl⟩
        simpa using clip_eq_min_max a.SettlementDays) hout
  · intro r hr
    rcases optionMap_mem hout r hr with ⟨a, _, har⟩
    rcases cleanRow_eq_some_iff.1 har with ⟨d, _, rfl⟩
    simpa using clip_bounds a.SettlementDays

/-- C2 witness: the concrete cleaned row has its settlement days in
`[1, 90]`. -/
theorem clean_clamps_settlement_days_witness :
    1 ≤ rDemoClean.SettlementDays ∧ rDemoClean.SettlementDays ≤ 90 :=
  (clean_clamps_settlement_days [rDemo] [rDemoClean] (by decide)).2 rDemoClean (by decide)

/-- C7: a surviving row's status is replaced by `"Pending"` exactly when
the input status is not one of the three valid values, and kept otherwise;
hence every cleaned status is valid. -/
theorem clean_status_coercion :
    ∀ (df out : List Record), clean_data df = some out →
      out.map Record.ClaimStatus =
        (df.filter (fun r => decide (0 < r.ClaimAmount))).map
          (fun r => if r.ClaimStatus ∈ STATUSES then r.ClaimStatus else "Pending") ∧
      ∀ r ∈ out, r.ClaimStatus ∈ STATUSES := by
  intro df out hout
  rw [clean_data_eq_rowwise] at hout
  constructor
  · exact optionMap_map_eq
      (fun a b hab => by
        rcases cleanRow_eq_some_iff.1 hab with ⟨d, _, rfl⟩
        rfl) hout
  · intro r hr
    rcases optionMap_mem hout r hr with ⟨a, _, har⟩
    rcases cleanRow_eq_some_iff.1 har with ⟨d, _, rfl⟩
    have hp : ("Pending" : String) ∈ STATUSES := by decide
    by_cases hst : a.ClaimStatus ∈ STATUSES
    · simp only [if_pos hst]
      exact hst
    · simp [hst, hp]

/-- C7 witness: the concrete cleaned row carries a valid status. -/
theorem clean_status_coercion_witness : rDemoClean.ClaimStatus ∈ STATUSES :=
  (clean_status_coercion [rDemo] [rDemoClean] (by decide)).2 rDemoClean (by decide)

/-- C10: cleaning rewrites only `SettlementDays`, `ClaimStatus` and
`ClaimDate` and adds only `YearMonth`: the remaining eight fields of every
surviving row are exactly those of the matching input row (and, the
embedding being pure, the input table itself is untouched). -/
theorem clean_preserves_frame_fields :
    ∀ (df out : List Record), clean_data df = some out →
      out.map frameFields =
        (df.filter (fun r => decide (0 < r.ClaimAmount))).map frameFields := by
  intro df out hout
  rw [clean_data_eq_rowwise] at hout
  exact optionMap_map_eq
    (fun a b hab => by
      rcases cleanRow_eq_some_iff.1 hab with ⟨d, _, rfl⟩
      rfl) hout

/-- C10 witness: frame fields of the concrete one-row table survive
cleaning unchanged. -/
theorem clean_preserves_frame_fields_witness :
    [rDemoClean].map frameFields =
      ([rDemo].filter (fun r => decide (0 < r.ClaimAmount))).map frameFields :=
  clean_preserves_frame_fields [rDemo] [rDemoClean] (by decide)

/-- C3: cleaning is idempotent — whenever it succeeds, running it again on
its own output succeeds and returns that output unchanged. -/
theorem clean_data_idempotent :
    ∀ (df out : List Record), clean_data df = some out →
      clean_data out = some out := by
  intro df out hout
  rw [clean_data_eq_rowwise] at hout ⊢
  have hmem := optionMap_mem hout
  have hpos : ∀ r' ∈ out, decide (0 < r'.ClaimAmount) = true := by
    intro r' hr'
    rcases hmem r' hr' with ⟨a, ha, har⟩
    rcases cleanRow_eq_some_iff.1 har with ⟨d, _, rfl⟩
    have := List.of_mem_filter ha
    simpa using this
  have hfix : ∀ r' ∈ out, cleanRow r' = some r' := by
    intro r' hr'
    rcases hmem r' hr' with ⟨a, ha, har⟩
    rcases cleanRow_eq_some_iff.1 har with ⟨d, htd, rfl⟩
    rw [cleanRow_eq_some_iff]
    refine ⟨d, rfl, ?_⟩
    have hs := clip_bounds a.SettlementDays
    have hclips : clip 1 90 (clip 1 90 a.SettlementDays) = clip 1 90 a.SettlementDays :=
      clip_fixed hs.1 hs.2
    have hp : ("Pending" : String) ∈ STATUSES := by decide
    by_cases hst : a.ClaimStatus ∈ STATUSES
    · simp [hst, hclips]
    · simp [hst, hp, hclips]
  rw [List.filter_eq_self.mpr hpos]
  exact optionMap_fixed hfix

/-- C3 witness: re-cleaning the concrete cleaned table is the identity. -/
theorem clean_data_idempotent_witness :
    clean_data [rDemoClean] = some [rDemoClean] :=
  clean_data_idempotent [rDemo, rBad] [rDemoClean] (by decide)

/-- C6: every cleaned row's `ClaimDate` is a parsed date and its derived
`YearMonth` equals the first seven characters of that date's ISO
representation. -/
theorem clean_yearMonth_is_iso_head :
    ∀ (df out : List Record), clean_data df = some out →
      ∀ r ∈ out, (∃ d, r.ClaimDate = DateVal.dt d) ∧
        ∀ d, r.ClaimDate = DateVal.dt d → r.YearMonth = some ((d.iso).take 7) := by
  intro df out hout r hr
  rw [clean_data_eq_rowwise] at hout
  rcases optionMap_mem hout r hr with ⟨a, _, har⟩
  rcases cleanRow_eq_some_iff.1 har with ⟨d, _, rfl⟩
  refine ⟨⟨d, rfl⟩, ?_⟩
  intro d' hd'
  simp only [] at hd'
  have : d = d' := by
    have := congrArg (fun v => match v with | DateVal.dt x => x | DateVal.str _ => d) hd'
    simpa using this
  rw [← this]
  simp [yearMonthStr_eq_take_iso]

/-- C6 witness: the concrete cleaned row's month string is the 7-character
head of its ISO date. -/
theorem clean_yearMonth_is_iso_head_witness :
    rDemoClean.YearMonth = some ((Date.iso ⟨2024, 5, 17⟩).take 7) :=
  (clean_yearMonth_is_iso_head [rDemo] [rDemoClean] (by decide) rDemoClean
    (by decide)).2 ⟨2024, 5, 17⟩ (by decide)

/-- C9: the fraud-flag threshold is monotone in the claim amount and never
exceeds fifteen percent. -/
theorem fraudProb_monotone_and_capped (a b : Int) (hab : a ≤ b) :
    fraudProb a ≤ fraudProb b ∧ fraudProb a ≤ (15 : Rat) / 100 := by
  constructor
  · unfold fraudProb
    refine min_le_min (add_le_add_left ?_ _) le_rfl
    have h1 : (a : Rat) ≤ (b : Rat) := by exact_mod_cast hab
    exact div_le_div_of_nonneg_right h1 (by norm_num)
  · exact min_le_right _ _

/-- C9 witness: the threshold at the two endpoints of the Motor range. -/
theorem fraudProb_monotone_and_capped_witness :
    fraudProb 10000 ≤ fraudProb 250000 ∧ fraudProb 10000 ≤ (15 : Rat) / 100 :=
  fraudProb_monotone_and_capped 10000 250000 (by norm_num)

/-! Range lemmas for the random draws. -/

theorem randint_bounds (g : RNG) (a b : Nat) (h : a ≤ b) :
    a ≤ (randint g a b).1 ∧ (randint g a b).1 ≤ b := by
  unfold randint
  have hm : g.ints g.ipos % (b + 1 - a) < b + 1 - a := Nat.mod_lt _ (by omega)
  constructor
  · exact Nat.le_add_right a _
  · simp only []
    omega

theorem getD_mem_of_lt {α : Type _} (l : List α) (i : Nat) (d : α)
    (h : i < l.length) : l.getD i d ∈ l := by
  induction l generalizing i with
  | nil => simp at h
  | cons x xs ih =>
    cases i with
    | zero => exact List.mem_cons_self _ _
    | succ j => exact List.mem_cons_of_mem _ (ih j (by simpa using h))

theorem choices3_mem (pop : List String) (c1 c2 : Rat) (g : RNG)
    (h : pop.length = 3) : (choices3 pop c1 c2 g).1 ∈ pop := by
  unfold choices3 randFloat
  simp only []
  split_ifs <;> exact getD_mem_of_lt _ _ _ (by omega)

theorem choice_mem (pop : List String) (g : RNG) (h : pop ≠ []) :
    (choice pop g).1 ∈ pop := by
  unfold choice randBelow
  simp only []
  exact getD_mem_of_lt _ _ _ (Nat.mod_lt _ (List.length_pos.2 h))

/-- Field ranges guaranteed for every single generated record. -/
theorem generate_record_props (idx : Nat) (today : Int) (g : RNG) :
    ((generate_record idx today g).1).ClaimType ∈ CLAIM_TYPES ∧
    amountLo ((generate_record idx today g).1).ClaimType ≤
      ((generate_record idx today g).1).ClaimAmount ∧
    ((generate_record idx today g).1).ClaimAmount ≤
      amountHi ((generate_record idx today g).1).ClaimType ∧
    0 < ((generate_record idx today g).1).ClaimAmount ∧
    1 ≤ ((generate_record idx today g).1).SettlementDays ∧
    ((generate_record idx today g).1).ClaimStatus ∈ STATUSES ∧
    ((generate_record idx today g).1).Region ∈ REGIONS ∧
    ((generate_record idx today g).1).AgentID ∈ AGENTS := by
  have hAg : AGENTS ≠ [] := List.ne_nil_of_length_pos (by simp [AGENTS])
  unfold generate_record
  simp only []
  refine ⟨choices3_mem _ _ _ _ rfl, ?_, ?_, ?_, ?_, choices3_mem _ _ _ _ rfl,
    choice_mem _ _ (by decide), choice_mem _ _ hAg⟩
  · by_cases hM : (choices3 CLAIM_TYPES (mkRat 5 10) (mkRat 8 10) g).1 = "Motor"
    · simp [hM, amountLo]
      exact (randint_bounds _ 10000 250000 (by omega)).1
    · by_cases hH : (choices3 CLAIM_TYPES (mkRat 5 10) (mkRat 8 10) g).1 = "Health"
      · simp [hM, hH, amountLo]
        exact (randint_bounds _ 20000 500000 (by omega)).1
      · simp [hM, hH, amountLo]
        exact (randint_bounds _ 30000 500000 (by omega)).1
  · by_cases hM : (choices3 CLAIM_TYPES (mkRat 5 10) (mkRat 8 10) g).1 = "Motor"
    · simp [hM, amountHi]
      exact (randint_bounds _ 10000 250000 (by omega)).2
    · by_cases hH : (choices3 CLAIM_TYPES (mkRat 5 10) (mkRat 8 10) g).1 = "Health"
      · simp [hM, hH, amountHi]
        exact (randint_bounds _ 20000 500000 (by omega)).2
      · simp [hM, hH, amountHi]
        exact (randint_bounds _ 30000 500000 (by omega)).2
  · by_cases hM : (choices3 CLAIM_TYPES (mkRat 5 10) (mkRat 8 10) g).1 = "Motor"
    · simp [hM]
      exact Nat.lt_of_lt_of_le (by norm_num) (randint_bounds _ 10000 250000 (by omega)).1
    · by_cases hH : (choices3 CLAIM_TYPES (mkRat 5 10) (mkRat 8 10) g).1 = "Health"
      · simp [hM, hH]
        exact Nat.lt_of_lt_of_le (by norm_num) (randint_bounds _ 20000 500000 (by omega)).1
      · simp [hM, hH]
        exact Nat.lt_of_lt_of_le (by norm_num) (randint_bounds _ 30000 500000 (by omega)).1
  · by_cases hP : (choices3 STATUSES (mkRat 7 10) (mkRat 9 10)
        (choices3 CLAIM_TYPES (mkRat 5 10) (mkRat 8 10) g).2).1 = "Pending"
    · simp [hP]
      exact (randint_bounds _ 1 10 (by omega)).1
    · simp [hP]

/-- Field ranges hold along the whole generated list, any start index. -/
theorem genFrom_props :
    ∀ (n idx : Nat) (today : Int) (g : RNG), ∀ r ∈ genFrom n idx today g,
      r.ClaimType ∈ CLAIM_TYPES ∧
      amountLo r.ClaimType ≤ r.ClaimAmount ∧
      r.ClaimAmount ≤ amountHi r.ClaimType ∧
      0 < r.ClaimAmount ∧
      1 ≤ r.SettlementDays ∧
      r.ClaimStatus ∈ STATUSES ∧
      r.Region ∈ REGIONS ∧
      r.AgentID ∈ AGENTS := by
  intro n
  induction n with
  | zero => intro idx t g r hr; exact absurd hr (List.not_mem_nil r)
  | succ m ih =>
    intro idx t g r hr
    rcases List.mem_cons.1 hr with rfl | hr2
    · exact generate_record_props idx t g
    · exact ih (idx + 1) t (generate_record idx t g).2 r hr2

/-- C4: every record the generator emits has its `ClaimAmount` inside the
integer range keyed by its `ClaimType` (Motor `[10000, 250000]`, Health
`[20000, 500000]`, Property `[30000, 500000]`), hence positive; at least
one settlement day; and type, status, region and agent drawn from the
fixed candidate sets. -/
theorem generated_records_in_ranges :
    ∀ (n : Nat) (today : Int) (g : RNG), ∀ r ∈ generate_raw n today g,
      r.ClaimType ∈ CLAIM_TYPES ∧
      amountLo r.ClaimType ≤ r.ClaimAmount ∧
      r.ClaimAmount ≤ amountHi r.ClaimType ∧
      0 < r.ClaimAmount ∧
      1 ≤ r.SettlementDays ∧
      r.ClaimStatus ∈ STATUSES ∧
      r.Region ∈ REGIONS ∧
      r.AgentID ∈ AGENTS :=
  fun n today g => genFrom_props n 0 today g

/-- C4 witness: the concrete generated record has a positive amount. -/
theorem generated_records_in_ranges_witness : 0 < genDemo.ClaimAmount :=
  (generated_records_in_ranges 1 0 gZero genDemo
    (List.mem_singleton.mpr rfl)).2.2.2.1

/-- One generated record depends on the current date only through its
`ClaimDate` field, and the resulting random state not at all. -/
theorem generate_record_today_invariant (idx : Nat) (t1 t2 : Int) (g : RNG) :
    stripDate (generate_record idx t1 g).1 = stripDate (generate_record idx t2 g).1 ∧
    (generate_record idx t1 g).2 = (generate_record idx t2 g).2 :=
  ⟨rfl, rfl⟩

/-- Date-stripped generated lists agree for any two current dates. -/
theorem genFrom_stripDate_today :
    ∀ (n idx : Nat) (t1 t2 : Int) (g : RNG),
      (genFrom n idx t1 g).map stripDate = (genFrom n idx t2 g).map stripDate := by
  intro n
  induction n with
  | zero => intro idx t1 t2 g; rfl
  | succ m ih =>
    intro idx t1 t2 g
    show stripDate (generate_record idx t1 g).1 ::
        (genFrom m (idx + 1) t1 (generate_record idx t1 g).2).map stripDate =
      stripDate (generate_record idx t2 g).1 ::
        (genFrom m (idx + 1) t2 (generate_record idx t2 g).2).map stripDate
    rw [(generate_record_today_invariant idx t1 t2 g).1,
      (generate_record_today_invariant idx t1 t2 g).2]
    exact congrArg _ (ih (idx + 1) t1 t2 (generate_record idx t2 g).2)

/-- C5 (amended): with the seed fixed, the generator output is a function
of the current date alone — two runs on the same date coincide on every
field, and runs on different dates still coincide on every field except
`ClaimDate`. -/
theorem generate_raw_deterministic_given_today :
    ∀ (n : Nat) (t1 t2 : Int) (g : RNG),
      (generate_raw n t1 g).map stripDate = (generate_raw n t2 g).map stripDate ∧
      (t1 = t2 → generate_raw n t1 g = generate_raw n t2 g) := by
  intro n t1 t2 g
  refine ⟨genFrom_stripDate_today n 0 t1 t2 g, ?_⟩
  intro h
  rw [h]

/-- C5 witness: concrete runs at day numbers 0 and 1 agree after dropping
`ClaimDate`, and two runs at day number 0 agree exactly. -/
theorem generate_raw_deterministic_given_today_witness :
    (generate_raw 1 0 gZero).map stripDate = (generate_raw 1 1 gZero).map stripDate ∧
    generate_raw 1 0 gZero = generate_raw 1 0 gZero :=
  ⟨(generate_raw_deterministic_given_today 1 0 1 gZero).1,
    (generate_raw_deterministic_given_today 1 0 0 gZero).2 rfl⟩

/-- C5 counterexample: byte-identical output across independent runs fails
as stated, because `ClaimDate` is derived from `datetime.today()` — the
same seed run on consecutive days yields different raw tables. -/
theorem generate_raw_differs_across_days :
    generate_raw 1 0 gZero ≠ generate_raw 1 1 gZero := by
  intro h
  exact absurd (congrArg (fun l => ((l.headD rDemo).ClaimDate)) h) (by decide)

/-- C8: the Trend sheet has exactly one row per distinct `YearMonth`
present in the table, rows ordered ascending by the key string, each
`ClaimVolume` counting that month's records, and the volumes summing to
the table's row count. -/
theorem trend_groupby_spec (df : List Record) :
    ((trend df).map Prod.fst).Nodup ∧
    List.Sorted (· ≤ ·) ((trend df).map Prod.fst) ∧
    (∀ k, k ∈ (trend df).map Prod.fst ↔ k ∈ df.map ymOf) ∧
    (∀ p ∈ trend df, p.2 = df.countP (fun r => ymOf r == p.1)) ∧
    ((trend df).map Prod.snd).sum = df.length := by
  have hperm : List.Perm (((df.map ymOf).dedup).insertionSort (· ≤ ·))
      ((df.map ymOf).dedup) :=
    List.perm_insertionSort _ _
  have hcomp : (Prod.fst ∘ fun k : String => (k, df.countP (fun r => ymOf r == k))) = id := rfl
  have hfst : (trend df).map Prod.fst = ((df.map ymOf).dedup).insertionSort (· ≤ ·) := by
    unfold trend
    rw [List.map_map, hcomp, List.map_id]
  refine ⟨?_, ?_, ?_, ?_, ?_⟩
  · rw [hfst]
    exact hperm.nodup_iff.mpr (List.nodup_dedup _)
  · rw [hfst]
    exact List.sorted_insertionSort _ _
  · intro k
    rw [hfst, hperm.mem_iff, List.mem_dedup]
  · intro p hp
    rcases List.mem_map.1 hp with ⟨k, _, rfl⟩
    rfl
  · have hsnd : (trend df).map Prod.snd =
        (((df.map ymOf).dedup).insertionSort (· ≤ ·)).map
          (fun k => df.countP (fun r => ymOf r == k)) := by
      unfold trend
      rw [List.map_map]
      rfl
    have hcount : ∀ k : String, df.countP (fun r => ymOf r == k) = (df.map ymOf).count k := by
      intro k
      rw [List.count, List.countP_map]
      rfl
    rw [hsnd]
    simp only [hcount]
    rw [(hperm.map (fun k => (df.map ymOf).count k)).sum_eq]
    rw [List.sum_map_count_dedup_eq_length]
    exact List.length_map df ymOf

/-- C8 witness: on a concrete one-row cleaned table, the single Trend row
counts that row's month once. -/
theorem trend_groupby_spec_witness :
    (1 : Nat) = [rDemoClean].countP (fun r => ymOf r == "2024-05") :=
  (trend_groupby_spec [rDemoClean]).2.2.2.1 ("2024-05", 1) (by decide)
